import Mathlib

/-!
Shallow embedding of the rewarded-ads platform backend
(ads_platform/backend/app/main.py over the schema of models.py).

Modelling conventions:
- Currency amounts (Float columns in the source) are embedded as rationals.
- Timestamps (datetime in the source) are embedded as integers counting
  seconds; subtraction of datetimes corresponds to integer subtraction, and
  the day boundary computed by utcnow().replace(hour=0, minute=0, second=0,
  microsecond=0) corresponds to rounding down to a multiple of 86400.
- Nondeterministic inputs of a handler (current time from utcnow, fresh
  identifiers and session tokens from uuid4, the uniform draw from
  random.uniform, the salted password hash) are passed as explicit oracle
  parameters.
- The database session is embedded as an explicit record of rows; each
  handler maps a state to a result together with the successor state and
  returns the state unchanged on every error path, since the source raises
  HTTPException before db.commit() and the uncommitted session is discarded.
- HTTP failures are embedded as the status code plus detail string exactly
  as raised by the source. The source would raise an AttributeError (a 500
  response, nothing committed) where a one-to-one related row is missing;
  those branches are embedded as a 500 error with the state unchanged.
- Handlers that depend on get_user first resolve the user id and fail 404
  when no such user exists, as the dependency does in the source.
-/

structure User where
  id : String
  email : String
  username : String
  password_hash : String
  is_active : Bool
  created_at : ℤ
deriving DecidableEq

structure AuthAccount where
  id : String
  user_id : String
  provider : String
  provider_id : String
  created_at : ℤ
deriving DecidableEq

structure AdUnit where
  id : String
  name : String
  reward_min : ℚ
  reward_max : ℚ
  cooldown_seconds : ℤ
  daily_cap : ℕ
  is_active : Bool
deriving DecidableEq

structure AdView where
  id : String
  user_id : String
  ad_unit_id : String
  session_token : String
  started_at : ℤ
  completed_at : Option ℤ
  rewarded_amount : Option ℚ
  status : String
deriving DecidableEq

structure Balance where
  user_id : String
  available : ℚ
  pending : ℚ
  updated_at : ℤ
deriving DecidableEq

structure Transaction where
  id : String
  user_id : String
  type : String
  source : String
  amount : ℚ
  occurred_at : ℤ
deriving DecidableEq

structure Withdrawal where
  id : String
  user_id : String
  amount : ℚ
  fee : ℚ
  payout_method : String
  destination : String
  status : String
  created_at : ℤ
  reviewed_at : Option ℤ
  review_notes : Option String
deriving DecidableEq

structure DB where
  users : List User
  auth_accounts : List AuthAccount
  ad_units : List AdUnit
  ad_views : List AdView
  balances : List Balance
  transactions : List Transaction
  withdrawals : List Withdrawal
deriving DecidableEq

structure ApiErr where
  status_code : ℕ
  detail : String
deriving DecidableEq

structure AuthRegisterResponse where
  message : String
  user_id : String
  verification_required : Bool
deriving DecidableEq

structure TokenResponse where
  access_token : String
  user_id : String
deriving DecidableEq

structure AdStartResponse where
  session_token : String
  cooldown_seconds : ℤ
deriving DecidableEq

structure AdCompleteResponse where
  reward : ℚ
  new_balance : ℚ
deriving DecidableEq

structure EarningsItem where
  transaction_id : String
  amount : ℚ
  occurred_at : ℤ
  source : String
deriving DecidableEq

structure WithdrawResponse where
  withdrawal_id : String
  status : String
  queued_at : ℤ
deriving DecidableEq

/-- Primary-key lookup db.get(User, user_id), as performed by get_user. -/
def findUser (db : DB) (uid : String) : Option User :=
  db.users.find? (fun u => u.id == uid)

/-- The one-to-one related row user.balance (Balance.user_id is the primary key). -/
def findBalance (db : DB) (uid : String) : Option Balance :=
  db.balances.find? (fun b => b.user_id == uid)

/-- In-place mutation of the rows matched by a unique key. The source mutates
the single row produced by a unique-key lookup (session_token is unique,
Balance.user_id and Withdrawal.id are primary keys); the update is embedded
as a keyed map over the rows. -/
def updateWhere {α : Type} (p : α → Bool) (f : α → α) (l : List α) : List α :=
  l.map (fun x => if p x then f x else x)

/-- The query order_by(AdView.started_at.desc()).first(): a row of maximal
started_at, when any row exists. -/
def mostRecent : List AdView → Option AdView
  | [] => none
  | v :: vs =>
    match mostRecent vs with
    | none => some v
    | some w => if w.started_at ≤ v.started_at then some v else some w

/-- utcnow().replace(hour=0, minute=0, second=0, microsecond=0): the start of
the current day in seconds. -/
def dayStart (now : ℤ) : ℤ := now - now % 86400

/-- The daily_count query of ads_start: this user, status completed,
started_at at or after the start of the day. The query does not filter on
the ad unit. -/
def dailyCount (views : List AdView) (uid : String) (now : ℤ) : ℕ :=
  (views.filter (fun v =>
    v.user_id == uid && v.status == "completed" &&
      decide (dayStart now ≤ v.started_at))).length

/-- The recent_view block of ads_start: the most recent AdView of this user
regardless of status or ad unit, compared against the cooldown. -/
def cooldownActive (views : List AdView) (uid : String) (now cd : ℤ) : Bool :=
  match mostRecent (views.filter (fun v => v.user_id == uid)) with
  | none => false
  | some v => decide (now - v.started_at < cd)

/-- Sum of the amounts of the transactions of one user. -/
def txSum (txs : List Transaction) (uid : String) : ℚ :=
  ((txs.filter (fun t => t.user_id == uid)).map Transaction.amount).sum

/-- Sum of the amounts of the withdrawals of one user. -/
def wSum (ws : List Withdrawal) (uid : String) : ℚ :=
  ((ws.filter (fun w => w.user_id == uid)).map Withdrawal.amount).sum

/-- random.uniform(a, b) = a + (b - a) * random(), with the draw from the
unit interval passed explicitly. -/
def uniformDraw (a b r : ℚ) : ℚ := a + (b - a) * r

/-- POST /api/auth/register. -/
def register (db : DB) (now : ℤ) (freshUserId : String) (pwdHash : String → String)
    (email password username : String) :
    Except ApiErr AuthRegisterResponse × DB :=
  if db.users.any (fun u => u.email == email) then
    (Except.error ⟨400, "Email already used"⟩, db)
  else
    let user : User :=
      { id := freshUserId, email := email, username := username,
        password_hash := pwdHash password, is_active := true, created_at := now }
    let db' : DB :=
      { db with
        users := db.users ++ [user],
        balances := db.balances ++
          [{ user_id := user.id, available := 0, pending := 0, updated_at := now }] }
    (Except.ok { message := "Registered successfully", user_id := user.id,
                 verification_required := true }, db')

/-- POST /api/auth/google. -/
def google_auth (db : DB) (now : ℤ) (freshUserId freshAccId freshPwHash accessToken : String)
    (id_token : String) : Except ApiErr TokenResponse × DB :=
  if id_token == "" then (Except.error ⟨400, "Invalid token"⟩, db)
  else
    match db.auth_accounts.find?
        (fun a => a.provider == "google" && a.provider_id == id_token) with
    | some acc =>
      match findUser db acc.user_id with
      | some user => (Except.ok { access_token := accessToken, user_id := user.id }, db)
      | none => (Except.error ⟨500, "Internal Server Error"⟩, db)
    | none =>
      let user : User :=
        { id := freshUserId,
          email := "google_" ++ id_token.take 8 ++ "@example.com",
          username := "google_" ++ id_token.take 8,
          password_hash := freshPwHash, is_active := true, created_at := now }
      let db' : DB :=
        { db with
          users := db.users ++ [user],
          balances := db.balances ++
            [{ user_id := user.id, available := 0, pending := 0, updated_at := now }],
          auth_accounts := db.auth_accounts ++
            [{ id := freshAccId, user_id := user.id, provider := "google",
               provider_id := id_token, created_at := now }] }
      (Except.ok { access_token := accessToken, user_id := user.id }, db')

/-- POST /api/ads/start. -/
def ads_start (db : DB) (now : ℤ) (freshViewId freshToken : String)
    (user_id ad_unit_id : String) : Except ApiErr AdStartResponse × DB :=
  match findUser db user_id with
  | none => (Except.error ⟨404, "User not found"⟩, db)
  | some _ =>
    match db.ad_units.find? (fun a => a.id == ad_unit_id) with
    | none => (Except.error ⟨404, "Ad unit not found"⟩, db)
    | some ad_unit =>
      if !ad_unit.is_active then (Except.error ⟨404, "Ad unit not found"⟩, db)
      else if cooldownActive db.ad_views user_id now ad_unit.cooldown_seconds then
        (Except.error ⟨429, "Cooldown active"⟩, db)
      else if ad_unit.daily_cap ≤ dailyCount db.ad_views user_id now then
        (Except.error ⟨429, "Daily cap reached"⟩, db)
      else
        let view : AdView :=
          { id := freshViewId, user_id := user_id, ad_unit_id := ad_unit.id,
            session_token := freshToken, started_at := now,
            completed_at := none, rewarded_amount := none, status := "started" }
        (Except.ok { session_token := freshToken,
                     cooldown_seconds := ad_unit.cooldown_seconds },
         { db with ad_views := db.ad_views ++ [view] })

/-- The mutation of the AdView row performed by ads_complete. -/
def completedView (v : AdView) (now : ℤ) (reward : ℚ) : AdView :=
  { v with status := "completed", completed_at := some now,
           rewarded_amount := some reward }

/-- The reward line of ads_complete: random.uniform(reward_min, reward_max)
when the ad unit of the view exists, 0.0 otherwise. -/
def drawReward (db : DB) (ad_unit_id : String) (rand : ℚ) : ℚ :=
  match db.ad_units.find? (fun a => a.id == ad_unit_id) with
  | some ad_unit => uniformDraw ad_unit.reward_min ad_unit.reward_max rand
  | none => 0

/-- POST /api/ads/complete. -/
def ads_complete (db : DB) (now : ℤ) (rand : ℚ) (freshTxId : String)
    (user_id session_token : String) : Except ApiErr AdCompleteResponse × DB :=
  match findUser db user_id with
  | none => (Except.error ⟨404, "User not found"⟩, db)
  | some _ =>
    match db.ad_views.find? (fun v => v.session_token == session_token) with
    | none => (Except.error ⟨404, "Session not found"⟩, db)
    | some ad_view =>
      if ad_view.user_id != user_id then
        (Except.error ⟨404, "Session not found"⟩, db)
      else if ad_view.status != "started" then
        (Except.error ⟨400, "Already completed"⟩, db)
      else
        let reward : ℚ := drawReward db ad_view.ad_unit_id rand
        match findBalance db user_id with
        | none => (Except.error ⟨500, "Internal Server Error"⟩, db)
        | some balance =>
          let db' : DB :=
            { db with
              ad_views := updateWhere (fun v => v.session_token == session_token)
                (fun v => completedView v now reward) db.ad_views,
              balances := updateWhere (fun b => b.user_id == user_id)
                (fun b => { b with available := b.available + reward,
                                   updated_at := now }) db.balances,
              transactions := db.transactions ++
                [{ id := freshTxId, user_id := user_id, type := "earn",
                   source := "ad_view", amount := reward, occurred_at := now }] }
          (Except.ok { reward := reward,
                       new_balance := balance.available + reward }, db')

/-- The query of get_history: this user, ordered by occurred_at descending. -/
def sortByOccurredDesc (txs : List Transaction) : List Transaction :=
  txs.mergeSort (fun a b => decide (b.occurred_at ≤ a.occurred_at))

/-- GET /api/me/history. -/
def get_history (db : DB) (user_id : String) :
    Except ApiErr (List EarningsItem) × DB :=
  match findUser db user_id with
  | none => (Except.error ⟨404, "User not found"⟩, db)
  | some _ =>
    let txs := sortByOccurredDesc
      (db.transactions.filter (fun t => t.user_id == user_id))
    (Except.ok ((txs.take 20).map (fun t =>
      { transaction_id := t.id, amount := t.amount,
        occurred_at := t.occurred_at, source := t.source })), db)

/-- POST /api/withdraw/request. -/
def request_withdraw (db : DB) (now : ℤ) (freshWithdrawalId freshTxId : String)
    (user_id : String) (amount : ℚ) (payout_method destination : String) :
    Except ApiErr WithdrawResponse × DB :=
  match findUser db user_id with
  | none => (Except.error ⟨404, "User not found"⟩, db)
  | some _ =>
    if amount < 10 then (Except.error ⟨400, "Minimum is $10"⟩, db)
    else
      match findBalance db user_id with
      | none => (Except.error ⟨500, "Internal Server Error"⟩, db)
      | some balance =>
        if balance.available < amount then
          (Except.error ⟨400, "Insufficient balance"⟩, db)
        else
          let w : Withdrawal :=
            { id := freshWithdrawalId, user_id := user_id, amount := amount,
              fee := 0.2, payout_method := payout_method,
              destination := destination, status := "pending",
              created_at := now, reviewed_at := none, review_notes := none }
          let db' : DB :=
            { db with
              balances := updateWhere (fun b => b.user_id == user_id)
                (fun b => { b with available := b.available - amount,
                                   pending := b.pending + amount,
                                   updated_at := now }) db.balances,
              withdrawals := db.withdrawals ++ [w],
              transactions := db.transactions ++
                [{ id := freshTxId, user_id := user_id, type := "spend",
                   source := "withdrawal", amount := -amount,
                   occurred_at := now }] }
          (Except.ok { withdrawal_id := w.id, status := w.status,
                       queued_at := w.created_at }, db')

/-- POST /api/admin/withdrawals/(withdrawal_id)/review. The pydantic pattern
on AdminWithdrawalReviewRequest.status admits exactly approved and rejected;
any other decision is rejected by validation before the handler runs. -/
def review_withdrawal (db : DB) (now : ℤ) (withdrawal_id : String)
    (decision : String) (review_notes : Option String) :
    Except ApiErr WithdrawResponse × DB :=
  if !(decision == "approved" || decision == "rejected") then
    (Except.error ⟨422, "Validation error"⟩, db)
  else
    match db.withdrawals.find? (fun w => w.id == withdrawal_id) with
    | none => (Except.error ⟨404, "Withdrawal not found"⟩, db)
    | some w =>
      let db' : DB :=
        { db with
          withdrawals := updateWhere (fun x => x.id == withdrawal_id)
            (fun x => { x with status := decision, reviewed_at := some now,
                               review_notes := review_notes }) db.withdrawals }
      (Except.ok { withdrawal_id := w.id, status := decision,
                   queued_at := w.created_at }, db')

/-- Freshness of a uuid4-generated user id: the id collides with no user id
already recorded anywhere in the store. -/
def freshUserIdFor (db : DB) (uid : String) : Bool :=
  db.users.all (fun u => u.id != uid) &&
  db.balances.all (fun b => b.user_id != uid) &&
  db.transactions.all (fun t => t.user_id != uid) &&
  db.withdrawals.all (fun w => w.user_id != uid)

/-- States reachable from a fresh store (arbitrary seeded ad inventory, no
user data) by any sequence of Register, StartSession, CompleteSession and
RequestWithdrawal calls with arbitrary oracle inputs; a failed call leaves
the state unchanged, so every step closes over both outcomes. -/
inductive Reach : DB → Prop where
  | start (db : DB) :
      db.users = [] → db.auth_accounts = [] → db.ad_views = [] →
      db.balances = [] → db.transactions = [] → db.withdrawals = [] →
      Reach db
  | step_register (db : DB) (now : ℤ) (uid : String) (pwdHash : String → String)
      (email password username : String) :
      Reach db → freshUserIdFor db uid = true →
      Reach (register db now uid pwdHash email password username).2
  | step_start (db : DB) (now : ℤ) (vid tok uid adid : String) :
      Reach db → Reach (ads_start db now vid tok uid adid).2
  | step_complete (db : DB) (now : ℤ) (rand : ℚ) (txid uid tok : String) :
      Reach db → Reach (ads_complete db now rand txid uid tok).2
  | step_withdraw (db : DB) (now : ℤ) (wid txid uid : String) (amount : ℚ)
      (method dest : String) :
      Reach db → Reach (request_withdraw db now wid txid uid amount method dest).2

/-- Modelled from the spec wording of the daily cap, which counts completed
AdViews of this user for the requested ad unit started since the day
boundary. Stated only to compare the per-ad-unit reading against the source
query, which does not filter on the ad unit. -/
def spec_dailyCountPerAdUnit (views : List AdView) (uid adid : String)
    (now : ℤ) : ℕ :=
  (views.filter (fun v =>
    v.user_id == uid && v.ad_unit_id == adid && v.status == "completed" &&
      decide (dayStart now ≤ v.started_at))).length

theorem updateWhere_map_eq {α β : Type} (p : α → Bool) (f : α → α) (g : α → β)
    (hgf : ∀ x, g (f x) = g x) (l : List α) :
    (updateWhere p f l).map g = l.map g := by
  unfold updateWhere
  rw [List.map_map]
  apply List.map_congr_left
  intro x _
  by_cases h : p x
  · simp [h, hgf x]
  · simp [h]

theorem find?_updateWhere {α : Type} (p : α → Bool) (f : α → α) (l : List α)
    (hpf : ∀ x, p (f x) = p x) :
    (updateWhere p f l).find? p = (l.find? p).map f := by
  induction l with
  | nil => rfl
  | cons x xs ih =>
    simp only [updateWhere, List.map_cons] at ih ⊢
    by_cases h : p x
    · simp [List.find?_cons, h, hpf x]
    · simp only [h, if_neg, Bool.false_eq_true, not_false_eq_true, ite_false]
      rw [List.find?_cons_of_neg _ h, List.find?_cons_of_neg _ (by simp [h]), ih]

theorem mostRecent_le (l : List AdView) (v : AdView) (hv : v ∈ l) :
    ∃ w, mostRecent l = some w ∧ v.started_at ≤ w.started_at := by
  induction l with
  | nil => cases hv
  | cons x xs ih =>
    rcases List.mem_cons.mp hv with hvx | hvxs
    · subst hvx
      unfold mostRecent
      cases hm : mostRecent xs with
      | none => exact ⟨v, rfl, le_refl _⟩
      | some w =>
        by_cases hle : w.started_at ≤ v.started_at
        · exact ⟨v, by simp [hle], le_refl _⟩
        · exact ⟨w, by simp [hle], le_of_not_le hle⟩
    · obtain ⟨w, hw, hvw⟩ := ih hvxs
      unfold mostRecent
      rw [hw]
      by_cases hle : w.started_at ≤ x.started_at
      · exact ⟨x, by simp [hle], le_trans hvw hle⟩
      · exact ⟨w, by simp [hle], hvw⟩

theorem txSum_append (txs : List Transaction) (t : Transaction) (uid : String) :
    txSum (txs ++ [t]) uid =
      txSum txs uid + (if t.user_id == uid then t.amount else 0) := by
  unfold txSum
  rw [List.filter_append]
  by_cases h : t.user_id == uid
  · simp [h]
  · simp [h]

theorem wSum_append (ws : List Withdrawal) (w : Withdrawal) (uid : String) :
    wSum (ws ++ [w]) uid =
      wSum ws uid + (if w.user_id == uid then w.amount else 0) := by
  unfold wSum
  rw [List.filter_append]
  by_cases h : w.user_id == uid
  · simp [h]
  · simp [h]

theorem txSum_eq_zero (txs : List Transaction) (uid : String)
    (h : ∀ t ∈ txs, (t.user_id == uid) = false) : txSum txs uid = 0 := by
  unfold txSum
  rw [List.filter_eq_nil_iff.mpr (by intro t ht; simp [h t ht])]
  rfl

theorem wSum_eq_zero (ws : List Withdrawal) (uid : String)
    (h : ∀ w ∈ ws, (w.user_id == uid) = false) : wSum ws uid = 0 := by
  unfold wSum
  rw [List.filter_eq_nil_iff.mpr (by intro w hw; simp [h w hw])]
  rfl

/-- C3: RequestWithdrawal fails VALIDATION_ERROR (400, minimum message) for
any amount below 10 regardless of balance, fails VALIDATION_ERROR (400,
insufficient balance) when the amount exceeds the available balance, and on
success moves exactly the amount from available to pending, appends a spend
transaction of minus the amount with source withdrawal, and creates a
pending Withdrawal of that amount. -/
theorem request_withdraw_spec (db : DB) (now : ℤ) (wid txid uid : String)
    (amount : ℚ) (method dest : String) (u : User) (b : Balance)
    (hU : findUser db uid = some u) (hB : findBalance db uid = some b) :
    (amount < 10 →
      request_withdraw db now wid txid uid amount method dest =
        (Except.error ⟨400, "Minimum is $10"⟩, db)) ∧
    (10 ≤ amount → b.available < amount →
      request_withdraw db now wid txid uid amount method dest =
        (Except.error ⟨400, "Insufficient balance"⟩, db)) ∧
    (10 ≤ amount → amount ≤ b.available →
      ∃ db', request_withdraw db now wid txid uid amount method dest =
          (Except.ok ⟨wid, "pending", now⟩, db') ∧
        findBalance db' uid = some { b with available := b.available - amount,
                                            pending := b.pending + amount,
                                            updated_at := now } ∧
        db'.withdrawals = db.withdrawals ++
          [⟨wid, uid, amount, 0.2, method, dest, "pending", now, none, none⟩] ∧
        db'.transactions = db.transactions ++
          [⟨txid, uid, "spend", "withdrawal", -amount, now⟩]) := by
  have hBfind : db.balances.find? (fun x => x.user_id == uid) = some b := hB
  refine ⟨?_, ?_, ?_⟩
  · intro h5
    unfold request_withdraw
    rw [hU]
    simp [h5]
  · intro h10 hins
    unfold request_withdraw
    rw [hU]
    simp only [not_lt.mpr h10, if_false]
    rw [hB]
    simp [hins]
  · intro h10 hsuf
    unfold request_withdraw
    rw [hU]
    simp only [not_lt.mpr h10, if_false]
    rw [hB]
    simp only [not_lt.mpr hsuf, if_false]
    refine ⟨_, rfl, ?_, rfl, rfl⟩
    unfold findBalance
    have hfu := find?_updateWhere (fun x : Balance => x.user_id == uid)
      (fun x => { x with available := x.available - amount,
                         pending := x.pending + amount, updated_at := now })
      db.balances (fun x => rfl)
    simp only []
    rw [hfu, hBfind]
    rfl

def c3db : DB :=
  ⟨[⟨"u1", "a@b.c", "alice", "h", true, 0⟩], [], [], [],
   [⟨"u1", 15, 0, 0⟩], [], []⟩

theorem request_withdraw_spec_witness :
    request_withdraw c3db 30 "w1" "x1" "u1" 5 "paypal" "dest" =
      (Except.error ⟨400, "Minimum is $10"⟩, c3db) ∧
    request_withdraw c3db 30 "w1" "x1" "u1" 20 "paypal" "dest" =
      (Except.error ⟨400, "Insufficient balance"⟩, c3db) ∧
    (request_withdraw c3db 30 "w1" "x1" "u1" 10 "paypal" "dest").1 =
      Except.ok ⟨"w1", "pending", 30⟩ ∧
    findBalance (request_withdraw c3db 30 "w1" "x1" "u1" 10 "paypal" "dest").2 "u1" =
      some ⟨"u1", 5, 10, 30⟩ := by
  have h5 := request_withdraw_spec c3db 30 "w1" "x1" "u1" 5 "paypal" "dest"
    ⟨"u1", "a@b.c", "alice", "h", true, 0⟩ ⟨"u1", 15, 0, 0⟩ (by decide) (by decide)
  have h20 := request_withdraw_spec c3db 30 "w1" "x1" "u1" 20 "paypal" "dest"
    ⟨"u1", "a@b.c", "alice", "h", true, 0⟩ ⟨"u1", 15, 0, 0⟩ (by decide) (by decide)
  have h10 := request_withdraw_spec c3db 30 "w1" "x1" "u1" 10 "paypal" "dest"
    ⟨"u1", "a@b.c", "alice", "h", true, 0⟩ ⟨"u1", 15, 0, 0⟩ (by decide) (by decide)
  obtain ⟨db', heq, hb, -, -⟩ := h10.2.2 (by norm_num) (by norm_num)
  refine ⟨h5.1 (by norm_num), h20.2.1 (by norm_num) (by norm_num), ?_, ?_⟩
  · rw [heq]
  · rw [heq]
    rw [hb]
    norm_num

theorem find?_append_right {α : Type} (p : α → Bool) (l1 l2 : List α)
    (h : ∀ x ∈ l1, p x = false) : (l1 ++ l2).find? p = l2.find? p := by
  induction l1 with
  | nil => rfl
  | cons x xs ih =>
    rw [List.cons_append, List.find?_cons_of_neg _ (by simp [h x (by simp)])]
    exact ih (fun y hy => h y (by simp [hy]))

/-- C9: a successful Register appends exactly one User whose stored
credential is the hash of the password, together with a zero-valued
Balance; a second registration of the same email then fails with CONFLICT
(400, email already used), leaves the store unchanged, and the first user
id remains queryable. -/
theorem register_spec (db : DB) (now now2 : ℤ) (uid uid2 : String)
    (ph ph2 : String → String) (email pw un pw2 un2 : String)
    (hFresh : ∀ u ∈ db.users, u.id ≠ uid)
    (hNew : ∀ u ∈ db.users, u.email ≠ email) :
    ∃ db', register db now uid ph email pw un =
        (Except.ok ⟨"Registered successfully", uid, true⟩, db') ∧
      db'.users = db.users ++ [⟨uid, email, un, ph pw, true, now⟩] ∧
      db'.balances = db.balances ++ [⟨uid, 0, 0, now⟩] ∧
      findUser db' uid = some ⟨uid, email, un, ph pw, true, now⟩ ∧
      register db' now2 uid2 ph2 email pw2 un2 =
        (Except.error ⟨400, "Email already used"⟩, db') ∧
      findUser (register db' now2 uid2 ph2 email pw2 un2).2 uid =
        some ⟨uid, email, un, ph pw, true, now⟩ := by
  have hany : db.users.any (fun u => u.email == email) = false := by
    rw [List.any_eq_false]
    intro u hu
    simp [hNew u hu]
  have hfind : findUser { db with
      users := db.users ++ [⟨uid, email, un, ph pw, true, now⟩],
      balances := db.balances ++ [⟨uid, 0, 0, now⟩] } uid =
      some ⟨uid, email, un, ph pw, true, now⟩ := by
    unfold findUser
    simp only []
    rw [find?_append_right _ _ _ (fun u hu => by simp [hFresh u hu])]
    simp
  have hany2 : (db.users ++ [(⟨uid, email, un, ph pw, true, now⟩ : User)]).any
      (fun u => u.email == email) = true := by
    rw [List.any_eq_true]
    exact ⟨⟨uid, email, un, ph pw, true, now⟩, by simp, by simp⟩
  refine ⟨_, ?_, rfl, rfl, hfind, ?_, ?_⟩
  · unfold register
    rw [hany]
    rfl
  · unfold register
    simp only []
    rw [hany2]
    rfl
  · unfold register
    simp only []
    rw [hany2]
    simp only []
    exact hfind

def c9db : DB := ⟨[], [], [], [], [], [], []⟩

theorem register_spec_witness :
    (register c9db 0 "u1" (fun s => "H" ++ s) "a@b.c" "password" "alice").2.users =
      [⟨"u1", "a@b.c", "alice", "Hpassword", true, 0⟩] ∧
    findUser (register c9db 0 "u1" (fun s => "H" ++ s) "a@b.c" "password" "alice").2 "u1" =
      some ⟨"u1", "a@b.c", "alice", "Hpassword", true, 0⟩ ∧
    (register (register c9db 0 "u1" (fun s => "H" ++ s) "a@b.c" "password" "alice").2
        1 "u2" (fun s => "H" ++ s) "a@b.c" "pass2" "bob").1 =
      Except.error ⟨400, "Email already used"⟩ := by
  obtain ⟨db', heq, hus, -, hfind, heq2, -⟩ :=
    register_spec c9db 0 1 "u1" "u2" (fun s => "H" ++ s) (fun s => "H" ++ s)
      "a@b.c" "password" "alice" "pass2" "bob"
      (by intro u hu; cases hu) (by intro u hu; cases hu)
  refine ⟨?_, ?_, ?_⟩
  · rw [heq, hus]
    rfl
  · rw [heq]
    exact hfind
  · rw [heq, heq2]

instance exceptDecEq {e a : Type} [DecidableEq e] [DecidableEq a] :
    DecidableEq (Except e a)
  | Except.ok x, Except.ok y =>
    if h : x = y then Decidable.isTrue (congrArg Except.ok h)
    else Decidable.isFalse (fun hc => h (Except.ok.inj hc))
  | Except.error x, Except.error y =>
    if h : x = y then Decidable.isTrue (congrArg Except.error h)
    else Decidable.isFalse (fun hc => h (Except.error.inj hc))
  | Except.ok _, Except.error _ => Decidable.isFalse (fun hc => Except.noConfusion hc)
  | Except.error _, Except.ok _ => Decidable.isFalse (fun hc => Except.noConfusion hc)

/-- C2 amended: ReviewWithdrawal on a missing withdrawal fails NOT_FOUND;
on any existing withdrawal it succeeds and overwrites the status with the
decision regardless of the current status, recording the review time and
notes. The handler performs no terminal-state check, so transitions are
not restricted to pending to approved or rejected. -/
theorem review_withdrawal_spec (db : DB) (now : ℤ) (wid decision : String)
    (notes : Option String)
    (hdec : decision = "approved" ∨ decision = "rejected") :
    (db.withdrawals.find? (fun w => w.id == wid) = none →
      review_withdrawal db now wid decision notes =
        (Except.error ⟨404, "Withdrawal not found"⟩, db)) ∧
    (∀ w, db.withdrawals.find? (fun x => x.id == wid) = some w →
      ∃ db', review_withdrawal db now wid decision notes =
          (Except.ok ⟨w.id, decision, w.created_at⟩, db') ∧
        db'.withdrawals.find? (fun x => x.id == wid) =
          some { w with status := decision, reviewed_at := some now,
                        review_notes := notes }) := by
  have hd : (decision == "approved" || decision == "rejected") = true := by
    rcases hdec with h | h <;> simp [h]
  constructor
  · intro hnone
    unfold review_withdrawal
    rw [hd]
    simp only [Bool.not_true, Bool.false_eq_true, if_false]
    rw [hnone]
  · intro w hw
    unfold review_withdrawal
    rw [hd]
    simp only [Bool.not_true, Bool.false_eq_true, if_false]
    rw [hw]
    refine ⟨_, rfl, ?_⟩
    have hfu := find?_updateWhere (fun x : Withdrawal => x.id == wid)
      (fun x => { x with status := decision, reviewed_at := some now,
                         review_notes := notes })
      db.withdrawals (fun x => rfl)
    simp only []
    rw [hfu, hw]
    rfl

def c2dbPending : DB :=
  ⟨[], [], [], [], [], [],
   [⟨"w1", "u1", 10, 0, "paypal", "dest", "pending", 5, none, none⟩]⟩

def c2dbApproved : DB := (review_withdrawal c2dbPending 6 "w1" "approved" none).2

theorem review_withdrawal_counterexample :
    c2dbApproved.withdrawals.map Withdrawal.status = ["approved"] ∧
    (review_withdrawal c2dbApproved 7 "w1" "rejected" none).1 =
      Except.ok ⟨"w1", "rejected", 5⟩ ∧
    (review_withdrawal c2dbApproved 7 "w1" "rejected" none).2.withdrawals.map
      Withdrawal.status = ["rejected"] := by decide

theorem review_withdrawal_spec_witness :
    review_withdrawal c2dbPending 6 "missing" "approved" none =
      (Except.error ⟨404, "Withdrawal not found"⟩, c2dbPending) ∧
    (review_withdrawal c2dbPending 6 "w1" "approved" none).2.withdrawals.find?
      (fun x => x.id == "w1") =
      some ⟨"w1", "u1", 10, 0, "paypal", "dest", "approved", 5, some 6, none⟩ := by
  constructor
  · exact (review_withdrawal_spec c2dbPending 6 "missing" "approved" none
      (Or.inl rfl)).1 (by decide)
  · obtain ⟨db', heq, hfind⟩ :=
      (review_withdrawal_spec c2dbPending 6 "w1" "approved" none (Or.inl rfl)).2
        ⟨"w1", "u1", 10, 0, "paypal", "dest", "pending", 5, none, none⟩ (by decide)
    rw [heq]
    exact hfind

def c10db0 : DB := ⟨[], [], [], [], [], [], []⟩

def c10db1 : DB := (google_auth c10db0 0 "gu1" "ga1" "h1" "at1" "abcdefgh1").2

def c10db2 : DB := (google_auth c10db1 1 "gu2" "ga2" "h2" "at2" "abcdefgh2").2

/-- C10: two distinct non-empty provider tokens with the same first eight
characters provision two distinct users with the same synthesized email,
so the second provisioning violates the email-uniqueness invariant of the
User table. -/
theorem google_auth_email_collision :
    ("abcdefgh1" : String) ≠ "abcdefgh2" ∧
    ("abcdefgh1" : String) ≠ "" ∧ ("abcdefgh2" : String) ≠ "" ∧
    ("abcdefgh1" : String).take 8 = ("abcdefgh2" : String).take 8 ∧
    (google_auth c10db1 1 "gu2" "ga2" "h2" "at2" "abcdefgh2").1 =
      Except.ok ⟨"at2", "gu2"⟩ ∧
    c10db2.users.map User.id = ["gu1", "gu2"] ∧
    c10db2.users.map User.email =
      ["google_abcdefgh@example.com", "google_abcdefgh@example.com"] ∧
    ¬ (c10db2.users.map User.email).Nodup := by decide

/-- C5: CompleteSession fails NOT_FOUND when no AdView carries the token or
the AdView belongs to another user, fails INVALID_STATE (400, already
completed) when the status of the callers AdView is not started, and each
failure leaves the state unchanged; after a successful completion a second
call on the same token fails INVALID_STATE with the state unchanged from
the effect of the first call. -/
theorem ads_complete_error_spec (db : DB) (now now2 : ℤ) (rand rand2 : ℚ)
    (txid txid2 uid tok : String) (u : User)
    (hU : findUser db uid = some u) :
    (db.ad_views.find? (fun x => x.session_token == tok) = none →
      ads_complete db now rand txid uid tok =
        (Except.error ⟨404, "Session not found"⟩, db)) ∧
    (∀ av, db.ad_views.find? (fun x => x.session_token == tok) = some av →
      av.user_id ≠ uid →
      ads_complete db now rand txid uid tok =
        (Except.error ⟨404, "Session not found"⟩, db)) ∧
    (∀ av, db.ad_views.find? (fun x => x.session_token == tok) = some av →
      av.user_id = uid → av.status ≠ "started" →
      ads_complete db now rand txid uid tok =
        (Except.error ⟨400, "Already completed"⟩, db)) ∧
    (∀ r db', ads_complete db now rand txid uid tok = (Except.ok r, db') →
      ads_complete db' now2 rand2 txid2 uid tok =
        (Except.error ⟨400, "Already completed"⟩, db')) := by
  have hUfind : List.find? (fun x => x.id == uid) db.users = some u := hU
  refine ⟨?_, ?_, ?_, ?_⟩
  · intro hnone
    unfold ads_complete
    rw [hU, hnone]
  · intro av hv hne
    unfold ads_complete
    rw [hU, hv]
    simp [hne]
  · intro av hv huid hst
    unfold ads_complete
    rw [hU, hv]
    simp [huid, hst]
  · intro r db' h
    unfold ads_complete at h
    simp only [hU] at h
    cases hv : List.find? (fun x => x.session_token == tok) db.ad_views with
    | none =>
      simp only [hv] at h
      exact absurd (congrArg Prod.fst h) (by simp)
    | some av =>
      simp only [hv] at h
      by_cases huid : av.user_id = uid
      · by_cases hst : av.status = "started"
        · simp only [huid, hst, bne_self_eq_false, Bool.false_eq_true,
            if_false] at h
          cases hb : findBalance db uid with
          | none =>
            simp only [hb] at h
            exact absurd (congrArg Prod.fst h) (by simp)
          | some bal =>
            simp only [hb, Prod.mk.injEq] at h
            obtain ⟨-, hdb⟩ := h
            subst hdb
            unfold ads_complete
            have hU2 : findUser
                { db with
                  ad_views := updateWhere (fun v => v.session_token == tok)
                    (fun v => completedView v now (drawReward db av.ad_unit_id rand))
                    db.ad_views,
                  balances := updateWhere (fun b => b.user_id == uid)
                    (fun b => { b with
                      available := b.available + drawReward db av.ad_unit_id rand,
                      updated_at := now }) db.balances,
                  transactions := db.transactions ++
                    [{ id := txid, user_id := uid, type := "earn",
                       source := "ad_view", amount := drawReward db av.ad_unit_id rand,
                       occurred_at := now }] } uid = some u := hUfind
            simp only [hU2]
            have hv2 : List.find? (fun x => x.session_token == tok)
                (updateWhere (fun v : AdView => v.session_token == tok)
                  (fun v => completedView v now (drawReward db av.ad_unit_id rand))
                  db.ad_views) =
                some (completedView av now (drawReward db av.ad_unit_id rand)) := by
              rw [find?_updateWhere (fun x : AdView => x.session_token == tok)
                (fun x => completedView x now (drawReward db av.ad_unit_id rand))
                db.ad_views (fun x => rfl), hv]
              rfl
            simp only [hv2]
            simp [completedView, huid]
        · have hbs : (av.status != "started") = true := by simp [hst]
          simp only [huid, bne_self_eq_false, Bool.false_eq_true, if_false,
            hbs, if_true] at h
          exact absurd (congrArg Prod.fst h) (by simp)
      · have hbu : (av.user_id != uid) = true := by simp [huid]
        simp only [hbu, if_true] at h
        exact absurd (congrArg Prod.fst h) (by simp)

def c5db : DB :=
  ⟨[⟨"u1", "a@b.c", "alice", "h", true, 0⟩, ⟨"u2", "c@d.e", "bob", "h", true, 0⟩],
   [], [⟨"U1", "vid", 0, 1, 60, 30, true⟩],
   [⟨"v1", "u1", "U1", "t1", 10, none, none, "started"⟩,
    ⟨"v2", "u2", "U1", "t2", 10, none, none, "started"⟩],
   [⟨"u1", 0, 0, 0⟩, ⟨"u2", 0, 0, 0⟩], [], []⟩

def c5db1 : DB := (ads_complete c5db 20 0 "x1" "u1" "t1").2

theorem ads_complete_error_spec_witness :
    ads_complete c5db 20 0 "x1" "u1" "nosuch" =
      (Except.error ⟨404, "Session not found"⟩, c5db) ∧
    ads_complete c5db 20 0 "x1" "u1" "t2" =
      (Except.error ⟨404, "Session not found"⟩, c5db) ∧
    ads_complete c5db1 30 0 "x2" "u1" "t1" =
      (Except.error ⟨400, "Already completed"⟩, c5db1) := by
  have h1 := ads_complete_error_spec c5db 20 30 0 0 "x1" "x2" "u1" "nosuch"
    ⟨"u1", "a@b.c", "alice", "h", true, 0⟩ (by decide)
  have h2 := ads_complete_error_spec c5db 20 30 0 0 "x1" "x2" "u1" "t2"
    ⟨"u1", "a@b.c", "alice", "h", true, 0⟩ (by decide)
  have h3 := ads_complete_error_spec c5db 20 30 0 0 "x1" "x2" "u1" "t1"
    ⟨"u1", "a@b.c", "alice", "h", true, 0⟩ (by decide)
  obtain ⟨r, db2, hre⟩ : ∃ r db2,
      ads_complete c5db 20 0 "x1" "u1" "t1" = (Except.ok r, db2) := ⟨_, _, rfl⟩
  refine ⟨h1.1 (by decide),
    h2.2.1 ⟨"v2", "u2", "U1", "t2", 10, none, none, "started"⟩ (by decide) (by decide),
    ?_⟩
  rw [show c5db1 = db2 from congrArg Prod.snd hre]
  exact h3.2.2.2 r db2 hre

/-- C6: a successful CompleteSession on a started AdView of the caller
draws a reward within the reward bounds of the ad unit of the view
(inclusive, given the schema invariant reward_min at most reward_max and a
unit-interval draw), marks the view completed with completion time and
rewarded amount, credits exactly the reward to the available balance with
the updated timestamp refreshed, and appends an earn transaction of the
reward with source ad_view, all in the same successor state; when the ad
unit of the view is missing the call still succeeds and the reward is 0. -/
theorem ads_complete_success_spec (db : DB) (now : ℤ) (rand : ℚ)
    (txid uid tok : String) (u : User) (av : AdView) (b : Balance)
    (hU : findUser db uid = some u)
    (hv : db.ad_views.find? (fun x => x.session_token == tok) = some av)
    (huid : av.user_id = uid) (hst : av.status = "started")
    (hB : findBalance db uid = some b) :
    (∀ au, db.ad_units.find? (fun a => a.id == av.ad_unit_id) = some au →
      au.reward_min ≤ au.reward_max → 0 ≤ rand → rand ≤ 1 →
      ∃ db', ads_complete db now rand txid uid tok =
          (Except.ok ⟨uniformDraw au.reward_min au.reward_max rand,
            b.available + uniformDraw au.reward_min au.reward_max rand⟩, db') ∧
        au.reward_min ≤ uniformDraw au.reward_min au.reward_max rand ∧
        uniformDraw au.reward_min au.reward_max rand ≤ au.reward_max ∧
        db'.ad_views.find? (fun x => x.session_token == tok) =
          some { av with
            status := "completed", completed_at := some now,
            rewarded_amount := some (uniformDraw au.reward_min au.reward_max rand) } ∧
        findBalance db' uid = some { b with
          available := b.available + uniformDraw au.reward_min au.reward_max rand,
          updated_at := now } ∧
        db'.transactions = db.transactions ++
          [⟨txid, uid, "earn", "ad_view",
            uniformDraw au.reward_min au.reward_max rand, now⟩]) ∧
    (db.ad_units.find? (fun a => a.id == av.ad_unit_id) = none →
      ∃ db', ads_complete db now rand txid uid tok =
        (Except.ok ⟨0, b.available⟩, db')) := by
  constructor
  · intro au hau hmm h0 h1
    have hR : drawReward db av.ad_unit_id rand =
        uniformDraw au.reward_min au.reward_max rand := by
      unfold drawReward
      rw [hau]
    unfold ads_complete
    simp only [hU, hv, huid, hst, bne_self_eq_false, Bool.false_eq_true,
      if_false, hB, hR]
    refine ⟨_, rfl, ?_, ?_, ?_, ?_, rfl⟩
    · unfold uniformDraw
      nlinarith [mul_nonneg (sub_nonneg.mpr hmm) h0]
    · unfold uniformDraw
      nlinarith [mul_le_of_le_one_right (sub_nonneg.mpr hmm) h1]
    · have hfu := find?_updateWhere (fun x : AdView => x.session_token == tok)
        (fun x => completedView x now (uniformDraw au.reward_min au.reward_max rand))
        db.ad_views (fun x => rfl)
      simp only []
      rw [hfu, hv]
      simp [completedView, huid]
    · have hfu := find?_updateWhere (fun x : Balance => x.user_id == uid)
        (fun x => { x with
          available := x.available + uniformDraw au.reward_min au.reward_max rand,
          updated_at := now }) db.balances (fun x => rfl)
      unfold findBalance
      simp only []
      rw [hfu]
      rw [show List.find? (fun b => b.user_id == uid) db.balances = some b from hB]
      rfl
  · intro hnone
    have hR : drawReward db av.ad_unit_id rand = 0 := by
      unfold drawReward
      rw [hnone]
    unfold ads_complete
    simp only [hU, hv, huid, hst, bne_self_eq_false, Bool.false_eq_true,
      if_false, hB, hR]
    exact ⟨_, by rw [add_zero]⟩

def c6db : DB :=
  ⟨[⟨"u1", "a@b.c", "alice", "h", true, 0⟩], [], [],
   [⟨"v1", "u1", "GONE", "t1", 10, none, none, "started"⟩],
   [⟨"u1", 7, 0, 0⟩], [], []⟩

theorem ads_complete_success_spec_witness :
    (0:ℚ) ≤ uniformDraw 0 1 (1/2) ∧ uniformDraw 0 1 (1/2) ≤ 1 ∧
    (ads_complete c5db 20 (1/2) "x1" "u1" "t1").1 =
      Except.ok ⟨uniformDraw 0 1 (1/2), 0 + uniformDraw 0 1 (1/2)⟩ ∧
    (ads_complete c5db 20 (1/2) "x1" "u1" "t1").2.ad_views.find?
      (fun x => x.session_token == "t1") =
      some ⟨"v1", "u1", "U1", "t1", 10, some 20,
        some (uniformDraw 0 1 (1/2)), "completed"⟩ ∧
    findBalance (ads_complete c5db 20 (1/2) "x1" "u1" "t1").2 "u1" =
      some ⟨"u1", 0 + uniformDraw 0 1 (1/2), 0, 20⟩ ∧
    (ads_complete c6db 20 (1/2) "x9" "u1" "t1").1 = Except.ok ⟨0, 7⟩ := by
  have h := ads_complete_success_spec c5db 20 (1/2) "x1" "u1" "t1"
    ⟨"u1", "a@b.c", "alice", "h", true, 0⟩
    ⟨"v1", "u1", "U1", "t1", 10, none, none, "started"⟩
    ⟨"u1", 0, 0, 0⟩ (by decide) (by decide) rfl rfl (by decide)
  obtain ⟨db', heq, hmin, hmax, hviews, hbal, -⟩ :=
    h.1 ⟨"U1", "vid", 0, 1, 60, 30, true⟩ (by decide) (by norm_num)
      (by norm_num) (by norm_num)
  have h2 := ads_complete_success_spec c6db 20 (1/2) "x9" "u1" "t1"
    ⟨"u1", "a@b.c", "alice", "h", true, 0⟩
    ⟨"v1", "u1", "GONE", "t1", 10, none, none, "started"⟩
    ⟨"u1", 7, 0, 0⟩ (by decide) (by decide) rfl rfl (by decide)
  obtain ⟨db2, heq2⟩ := h2.2 (by decide)
  refine ⟨hmin, hmax, ?_, ?_, ?_, ?_⟩
  · rw [heq]
  · rw [heq]
    exact hviews
  · rw [heq]
    exact hbal
  · rw [heq2]

/-- C7: StartSession fails NOT_FOUND when the requested ad unit is missing
or inactive; when the unit exists and is active and the most recent AdView
of the user by start time, regardless of status or ad unit, started less
than cooldown_seconds of the requested unit ago, it fails RATE_LIMITED
(429, cooldown active); in particular a second StartSession by the same
user within the cooldown of the (existing, active) requested unit after a
successful first always fails RATE_LIMITED. -/
theorem ads_start_cooldown_spec (db : DB) (now now2 : ℤ)
    (vid vid2 tok tok2 uid adid adid2 : String) (u : User)
    (hU : findUser db uid = some u) :
    (db.ad_units.find? (fun a => a.id == adid) = none →
      ads_start db now vid tok uid adid =
        (Except.error ⟨404, "Ad unit not found"⟩, db)) ∧
    (∀ au, db.ad_units.find? (fun a => a.id == adid) = some au →
      au.is_active = false →
      ads_start db now vid tok uid adid =
        (Except.error ⟨404, "Ad unit not found"⟩, db)) ∧
    (∀ au, db.ad_units.find? (fun a => a.id == adid) = some au →
      au.is_active = true →
      ∀ v, mostRecent (db.ad_views.filter (fun x => x.user_id == uid)) = some v →
      now - v.started_at < au.cooldown_seconds →
      ads_start db now vid tok uid adid =
        (Except.error ⟨429, "Cooldown active"⟩, db)) ∧
    (∀ r db', ads_start db now vid tok uid adid = (Except.ok r, db') →
      ∀ au2, db'.ad_units.find? (fun a => a.id == adid2) = some au2 →
      au2.is_active = true → now2 - now < au2.cooldown_seconds →
      ads_start db' now2 vid2 tok2 uid adid2 =
        (Except.error ⟨429, "Cooldown active"⟩, db')) := by
  have hUfind : List.find? (fun x => x.id == uid) db.users = some u := hU
  refine ⟨?_, ?_, ?_, ?_⟩
  · intro hnone
    unfold ads_start
    rw [hU, hnone]
  · intro au hau hact
    unfold ads_start
    rw [hU, hau]
    simp [hact]
  · intro au hau hact v hmr hlt
    have hca : cooldownActive db.ad_views uid now au.cooldown_seconds = true := by
      unfold cooldownActive
      rw [hmr]
      simpa using hlt
    unfold ads_start
    rw [hU, hau]
    simp [hact, hca]
  · intro r db' h au2 hau2 hact2 hlt2
    unfold ads_start at h
    simp only [hU] at h
    cases hau1 : List.find? (fun a => a.id == adid) db.ad_units with
    | none =>
      simp only [hau1] at h
      exact absurd (congrArg Prod.fst h) (by simp)
    | some au =>
      simp only [hau1] at h
      by_cases hact1 : au.is_active
      · simp only [hact1, Bool.not_true, Bool.false_eq_true, if_false] at h
        by_cases hcd : cooldownActive db.ad_views uid now au.cooldown_seconds
        · simp only [hcd, if_true] at h
          exact absurd (congrArg Prod.fst h) (by simp)
        · simp only [hcd, Bool.false_eq_true, if_false] at h
          by_cases hcap : au.daily_cap ≤ dailyCount db.ad_views uid now
          · simp only [if_pos hcap] at h
            exact absurd (congrArg Prod.fst h) (by simp)
          · simp only [if_neg hcap, Prod.mk.injEq] at h
            obtain ⟨-, hdb⟩ := h
            subst hdb
            unfold ads_start
            have hU2 : findUser { db with ad_views := db.ad_views ++
                [⟨vid, uid, au.id, tok, now, none, none, "started"⟩] } uid =
                some u := hUfind
            simp only at hau2
            have hca2 : cooldownActive
                (db.ad_views ++ [⟨vid, uid, au.id, tok, now, none, none, "started"⟩])
                uid now2 au2.cooldown_seconds = true := by
              unfold cooldownActive
              have hmem : (⟨vid, uid, au.id, tok, now, none, none, "started"⟩ : AdView) ∈
                  (db.ad_views ++
                    [(⟨vid, uid, au.id, tok, now, none, none, "started"⟩ : AdView)]).filter
                    (fun x => x.user_id == uid) := by
                rw [List.filter_append]
                refine List.mem_append_right _ ?_
                simp
              obtain ⟨w, hw, hle⟩ := mostRecent_le _ _ hmem
              have hle2 : now ≤ w.started_at := hle
              rw [hw]
              simp only [decide_eq_true_eq]
              omega
            simp only [hU2, hau2, hact2, hca2, Bool.not_true, Bool.false_eq_true,
              if_false, if_true]
      · have hf : au.is_active = false := by simpa using hact1
        simp only [hf, Bool.not_false, if_true] at h
        exact absurd (congrArg Prod.fst h) (by simp)

def c7db : DB :=
  ⟨[⟨"u1", "a@b.c", "alice", "h", true, 0⟩], [],
   [⟨"U1", "vid", 0, 1, 60, 30, true⟩, ⟨"U2", "off", 0, 1, 60, 30, false⟩],
   [], [⟨"u1", 0, 0, 0⟩], [], []⟩

def c7db1 : DB := (ads_start c7db 100 "v1" "t1" "u1" "U1").2

theorem ads_start_cooldown_spec_witness :
    ads_start c7db 100 "v9" "t9" "u1" "NOPE" =
      (Except.error ⟨404, "Ad unit not found"⟩, c7db) ∧
    ads_start c7db 100 "v9" "t9" "u1" "U2" =
      (Except.error ⟨404, "Ad unit not found"⟩, c7db) ∧
    ads_start c7db1 130 "v2" "t2" "u1" "U1" =
      (Except.error ⟨429, "Cooldown active"⟩, c7db1) := by
  have hA := ads_start_cooldown_spec c7db 100 130 "v9" "v2" "t9" "t2" "u1"
    "NOPE" "X" ⟨"u1", "a@b.c", "alice", "h", true, 0⟩ (by decide)
  have hB := ads_start_cooldown_spec c7db 100 130 "v9" "v2" "t9" "t2" "u1"
    "U2" "X" ⟨"u1", "a@b.c", "alice", "h", true, 0⟩ (by decide)
  have hC := ads_start_cooldown_spec c7db 100 130 "v1" "v2" "t1" "t2" "u1"
    "U1" "U1" ⟨"u1", "a@b.c", "alice", "h", true, 0⟩ (by decide)
  obtain ⟨r, db2, hre⟩ : ∃ r db2,
      ads_start c7db 100 "v1" "t1" "u1" "U1" = (Except.ok r, db2) := ⟨_, _, rfl⟩
  have hdb2 : c7db1 = db2 := congrArg Prod.snd hre
  refine ⟨hA.1 (by decide),
    hB.2.1 ⟨"U2", "off", 0, 1, 60, 30, false⟩ (by decide) rfl, ?_⟩
  rw [hdb2]
  exact hC.2.2.2 r db2 hre ⟨"U1", "vid", 0, 1, 60, 30, true⟩
    (by rw [← hdb2]; decide) rfl (by decide)

/-- C8: GetHistory returns at most 20 transactions of the user, sorted
descending by occurrence time, and they are exactly the most recent ones:
the returned items together with some remainder are a permutation of all
the items of the user, and every remaining item occurred no later than
every returned one; the state is unchanged. -/
theorem get_history_spec (db : DB) (uid : String) (u : User)
    (hU : findUser db uid = some u) :
    ∃ items : List EarningsItem,
      get_history db uid = (Except.ok items, db) ∧
      items.length ≤ 20 ∧
      items.Pairwise (fun a b => b.occurred_at ≤ a.occurred_at) ∧
      ∃ rest : List EarningsItem,
        List.Perm (items ++ rest)
          ((db.transactions.filter (fun t => t.user_id == uid)).map
            (fun t => ⟨t.id, t.amount, t.occurred_at, t.source⟩)) ∧
        ∀ x ∈ items, ∀ y ∈ rest, y.occurred_at ≤ x.occurred_at := by
  have hperm : (sortByOccurredDesc
      (db.transactions.filter (fun t => t.user_id == uid))).Perm
      (db.transactions.filter (fun t => t.user_id == uid)) :=
    List.mergeSort_perm _ _
  have hsorted : (sortByOccurredDesc
      (db.transactions.filter (fun t => t.user_id == uid))).Pairwise
      (fun a b => b.occurred_at ≤ a.occurred_at) := by
    have h := @List.sorted_mergeSort Transaction
      (fun a b => decide (b.occurred_at ≤ a.occurred_at))
      (fun a b c hab hbc => by
        simp only [decide_eq_true_eq] at hab hbc ⊢
        omega)
      (fun a b => by
        simp only [Bool.or_eq_true, decide_eq_true_eq]
        omega)
      (db.transactions.filter (fun t => t.user_id == uid))
    exact h.imp (fun hab => by simpa using hab)
  refine ⟨((sortByOccurredDesc
      (db.transactions.filter (fun t => t.user_id == uid))).take 20).map
      (fun t => ⟨t.id, t.amount, t.occurred_at, t.source⟩), ?_, ?_, ?_,
    ((sortByOccurredDesc
      (db.transactions.filter (fun t => t.user_id == uid))).drop 20).map
      (fun t => ⟨t.id, t.amount, t.occurred_at, t.source⟩), ?_, ?_⟩
  · unfold get_history
    rw [hU]
  · rw [List.length_map, List.length_take]
    omega
  · rw [List.pairwise_map]
    exact hsorted.sublist (List.take_sublist 20 _)
  · rw [← List.map_append, List.take_append_drop]
    exact hperm.map _
  · have happ : ((sortByOccurredDesc
        (db.transactions.filter (fun t => t.user_id == uid))).take 20 ++
        (sortByOccurredDesc
          (db.transactions.filter (fun t => t.user_id == uid))).drop 20).Pairwise
        (fun a b => b.occurred_at ≤ a.occurred_at) := by
      rw [List.take_append_drop]
      exact hsorted
    have hcross := (List.pairwise_append.mp happ).2.2
    intro x hx y hy
    obtain ⟨a, ha, rfl⟩ := List.mem_map.mp hx
    obtain ⟨b, hb, rfl⟩ := List.mem_map.mp hy
    exact hcross a ha b hb

def c8db : DB :=
  ⟨[⟨"u1", "a@b.c", "alice", "h", true, 0⟩], [], [], [], [⟨"u1", 0, 0, 0⟩],
   [⟨"x1", "u1", "earn", "ad_view", 1, 5⟩,
    ⟨"x2", "u1", "earn", "ad_view", 2, 9⟩,
    ⟨"x3", "u1", "earn", "ad_view", 3, 1⟩], []⟩

theorem get_history_spec_witness :
    (get_history c8db "u1").2 = c8db ∧
    ((get_history c8db "u1").1.toOption.getD []).length ≤ 20 ∧
    ((get_history c8db "u1").1.toOption.getD []).Pairwise
      (fun a b => b.occurred_at ≤ a.occurred_at) := by
  obtain ⟨items, heq, hlen, hpair, -⟩ :=
    get_history_spec c8db "u1" ⟨"u1", "a@b.c", "alice", "h", true, 0⟩ (by decide)
  rw [heq]
  exact ⟨rfl, hlen, hpair⟩

/-- C4 amended: with the user and an existing, active ad unit and the
cooldown check passing, StartSession fails RATE_LIMITED (429, daily cap
reached) exactly when the number of AdViews of this user with status
completed and started since the day boundary, counted across all ad units,
is at least the daily_cap of the requested unit; below the cap it succeeds
and records one new started AdView. -/
theorem ads_start_daily_cap_spec (db : DB) (now : ℤ) (vid tok uid adid : String)
    (u : User) (au : AdUnit)
    (hU : findUser db uid = some u)
    (hA : db.ad_units.find? (fun a => a.id == adid) = some au)
    (hact : au.is_active = true)
    (hcd : cooldownActive db.ad_views uid now au.cooldown_seconds = false) :
    ((ads_start db now vid tok uid adid).1 =
        Except.error ⟨429, "Daily cap reached"⟩ ↔
      au.daily_cap ≤ dailyCount db.ad_views uid now) ∧
    (dailyCount db.ad_views uid now < au.daily_cap →
      ads_start db now vid tok uid adid =
        (Except.ok ⟨tok, au.cooldown_seconds⟩,
         { db with ad_views := db.ad_views ++
            [⟨vid, uid, au.id, tok, now, none, none, "started"⟩] })) := by
  have hok : dailyCount db.ad_views uid now < au.daily_cap →
      ads_start db now vid tok uid adid =
        (Except.ok ⟨tok, au.cooldown_seconds⟩,
         { db with ad_views := db.ad_views ++
            [⟨vid, uid, au.id, tok, now, none, none, "started"⟩] }) := by
    intro hlt
    unfold ads_start
    rw [hU, hA]
    simp only [hact, Bool.not_true, Bool.false_eq_true, if_false, hcd,
      if_neg (not_le.mpr hlt)]
  refine ⟨⟨?_, ?_⟩, hok⟩
  · intro h
    by_contra hc
    push_neg at hc
    rw [hok hc] at h
    simp at h
  · intro hcap
    unfold ads_start
    rw [hU, hA]
    simp only [hact, Bool.not_true, Bool.false_eq_true, if_false, hcd,
      if_pos hcap]

def c4db0 : DB :=
  ⟨[], [], [⟨"A", "a", 1, 1, 0, 30, true⟩, ⟨"B", "b", 1, 1, 0, 1, true⟩],
   [], [], [], []⟩

def c4db1 : DB := (register c4db0 0 "u1" (fun _ => "h") "a@b.c" "password" "alice").2

def c4db2 : DB := (ads_start c4db1 100 "v1" "t1" "u1" "A").2

def c4db3 : DB := (ads_complete c4db2 150 0 "x1" "u1" "t1").2

theorem ads_start_daily_cap_counterexample :
    (ads_start c4db3 200 "v2" "t2" "u1" "B").1 =
      Except.error ⟨429, "Daily cap reached"⟩ ∧
    spec_dailyCountPerAdUnit c4db3.ad_views "u1" "B" 200 = 0 ∧
    c4db3.ad_units.find? (fun a => a.id == "B") =
      some ⟨"B", "b", 1, 1, 0, 1, true⟩ ∧
    cooldownActive c4db3.ad_views "u1" 200 0 = false ∧
    dailyCount c4db3.ad_views "u1" 200 = 1 := by decide

def c4wdb : DB :=
  ⟨[⟨"u1", "a@b.c", "alice", "h", true, 0⟩], [],
   [⟨"B", "b", 1, 1, 0, 2, true⟩],
   [⟨"v1", "u1", "B", "t1", 100, some 120, none, "completed"⟩],
   [⟨"u1", 0, 0, 0⟩], [], []⟩

theorem ads_start_daily_cap_spec_witness :
    ads_start c4wdb 200 "v2" "t2" "u1" "B" =
      (Except.ok ⟨"t2", 0⟩,
       { c4wdb with ad_views := c4wdb.ad_views ++
          [⟨"v2", "u1", "B", "t2", 200, none, none, "started"⟩] }) ∧
    ¬ ((ads_start c4wdb 200 "v2" "t2" "u1" "B").1 =
        Except.error ⟨429, "Daily cap reached"⟩) := by
  have h := ads_start_daily_cap_spec c4wdb 200 "v2" "t2" "u1" "B"
    ⟨"u1", "a@b.c", "alice", "h", true, 0⟩ ⟨"B", "b", 1, 1, 0, 2, true⟩
    (by decide) (by decide) rfl (by decide)
  refine ⟨h.2 (by decide), fun hc => ?_⟩
  have h2 := h.1.mp hc
  rw [show dailyCount c4wdb.ad_views "u1" 200 = 1 from by decide] at h2
  exact absurd h2 (by decide)

theorem beq_false_of_bne {α : Type} [BEq α] [LawfulBEq α] {a b : α}
    (h : (a != b) = true) : (a == b) = false := by
  simpa using h

/-- The ledger invariant that the reachable states satisfy: available
balance is the sum of the transaction amounts of the user, and pending
balance is the sum of the withdrawal amounts of the user. -/
def reconciled (db : DB) : Prop :=
  ∀ b ∈ db.balances, b.available = txSum db.transactions b.user_id ∧
    b.pending = wSum db.withdrawals b.user_id

theorem inv_balances_earn (bals : List Balance) (txs : List Transaction)
    (ws : List Withdrawal) (uid : String) (R : ℚ) (now : ℤ)
    (tid ty src : String)
    (h : ∀ b ∈ bals, b.available = txSum txs b.user_id ∧
      b.pending = wSum ws b.user_id) :
    ∀ b ∈ updateWhere (fun x => x.user_id == uid)
        (fun x => { x with available := x.available + R, updated_at := now })
        bals,
      b.available = txSum (txs ++ [⟨tid, uid, ty, src, R, now⟩]) b.user_id ∧
      b.pending = wSum ws b.user_id := by
  intro b hb
  unfold updateWhere at hb
  obtain ⟨x, hx, hxe⟩ := List.mem_map.mp hb
  obtain ⟨ha, hp⟩ := h x hx
  by_cases hux : (x.user_id == uid) = true
  · rw [if_pos hux] at hxe
    subst hxe
    have he : x.user_id = uid := by simpa using hux
    refine ⟨?_, hp⟩
    rw [txSum_append]
    simp only [he, beq_self_eq_true, if_true]
    rw [ha, he]
  · rw [if_neg hux] at hxe
    subst hxe
    refine ⟨?_, hp⟩
    rw [txSum_append]
    have hne : ¬ x.user_id = uid := by simpa using hux
    have hf : (((⟨tid, uid, ty, src, R, now⟩ : Transaction).user_id ==
        x.user_id) = false) := by
      simp only []
      exact beq_eq_false_iff_ne.mpr (Ne.symm hne)
    rw [hf]
    simp [ha]

theorem inv_balances_withdraw (bals : List Balance) (txs : List Transaction)
    (ws : List Withdrawal) (uid : String) (amount : ℚ) (now : ℤ)
    (tid wid method dest : String)
    (h : ∀ b ∈ bals, b.available = txSum txs b.user_id ∧
      b.pending = wSum ws b.user_id) :
    ∀ b ∈ updateWhere (fun x => x.user_id == uid)
        (fun x => { x with available := x.available - amount,
                           pending := x.pending + amount, updated_at := now })
        bals,
      b.available = txSum
        (txs ++ [⟨tid, uid, "spend", "withdrawal", -amount, now⟩]) b.user_id ∧
      b.pending = wSum
        (ws ++ [⟨wid, uid, amount, 0.2, method, dest, "pending", now,
                 none, none⟩]) b.user_id := by
  intro b hb
  unfold updateWhere at hb
  obtain ⟨x, hx, hxe⟩ := List.mem_map.mp hb
  obtain ⟨ha, hp⟩ := h x hx
  by_cases hux : (x.user_id == uid) = true
  · rw [if_pos hux] at hxe
    subst hxe
    have he : x.user_id = uid := by simpa using hux
    constructor
    · rw [txSum_append]
      simp only [he, beq_self_eq_true, if_true]
      rw [ha, he]
      ring
    · rw [wSum_append]
      simp only [he, beq_self_eq_true, if_true]
      rw [hp, he]
  · rw [if_neg hux] at hxe
    subst hxe
    have hne : ¬ x.user_id = uid := by simpa using hux
    constructor
    · rw [txSum_append]
      have hf : (((⟨tid, uid, "spend", "withdrawal", -amount, now⟩ :
          Transaction).user_id == x.user_id) = false) := by
        simp only []
        exact beq_eq_false_iff_ne.mpr (Ne.symm hne)
      rw [hf]
      simp [ha]
    · rw [wSum_append]
      have hf : (((⟨wid, uid, amount, 0.2, method, dest, "pending", now,
          none, none⟩ : Withdrawal).user_id == x.user_id) = false) := by
        simp only []
        exact beq_eq_false_iff_ne.mpr (Ne.symm hne)
      rw [hf]
      simp [hp]

theorem reconciled_register (db : DB) (now : ℤ) (uid : String)
    (ph : String → String) (email pw un : String)
    (h : reconciled db) (hf : freshUserIdFor db uid = true) :
    reconciled (register db now uid ph email pw un).2 := by
  unfold register
  by_cases hany : db.users.any (fun u => u.email == email)
  · rw [if_pos hany]
    exact h
  · rw [if_neg hany]
    intro b hb
    rcases List.mem_append.mp hb with hbo | hbn
    · exact h b hbo
    · have hb0 : b = ⟨uid, 0, 0, now⟩ := by simpa using hbn
      subst hb0
      unfold freshUserIdFor at hf
      simp only [Bool.and_eq_true, List.all_eq_true] at hf
      constructor
      · exact (txSum_eq_zero _ _
          (fun t ht => beq_false_of_bne (hf.1.2 t ht))).symm
      · exact (wSum_eq_zero _ _
          (fun w hw => beq_false_of_bne (hf.2 w hw))).symm

theorem reconciled_ads_start (db : DB) (now : ℤ) (vid tok uid adid : String)
    (h : reconciled db) :
    reconciled (ads_start db now vid tok uid adid).2 := by
  unfold ads_start
  split
  · exact h
  · split
    · exact h
    · split
      · exact h
      · split
        · exact h
        · split
          · exact h
          · exact fun b hb => h b hb

theorem reconciled_ads_complete (db : DB) (now : ℤ) (rand : ℚ)
    (txid uid tok : String) (h : reconciled db) :
    reconciled (ads_complete db now rand txid uid tok).2 := by
  unfold ads_complete
  split
  · exact h
  · split
    · exact h
    · split
      · exact h
      · split
        · exact h
        · split
          · exact h
          · exact inv_balances_earn db.balances db.transactions db.withdrawals
              uid _ now txid "earn" "ad_view" h

theorem reconciled_request_withdraw (db : DB) (now : ℤ)
    (wid txid uid : String) (amount : ℚ) (method dest : String)
    (h : reconciled db) :
    reconciled (request_withdraw db now wid txid uid amount method dest).2 := by
  unfold request_withdraw
  split
  · exact h
  · split
    · exact h
    · split
      · exact h
      · split
        · exact h
        · exact inv_balances_withdraw db.balances db.transactions db.withdrawals
            uid amount now txid wid method dest h

/-- C1 amended: in every state reachable by Register, StartSession,
CompleteSession and RequestWithdrawal from a fresh store, for every user,
Balance.available equals the sum of the amounts of the Transaction records
of that user, and Balance.pending equals the sum of the amounts of the
Withdrawal records of that user; available plus pending is not reconciled
by the transactions alone once a withdrawal exists, since a withdrawal
both moves the amount from available to pending and appends a negative
spend transaction. -/
theorem balance_reconciliation (db : DB) (h : Reach db) :
    ∀ b ∈ db.balances, b.available = txSum db.transactions b.user_id ∧
      b.pending = wSum db.withdrawals b.user_id := by
  induction h with
  | start db h1 h2 h3 h4 h5 h6 =>
    intro b hb
    rw [h4] at hb
    cases hb
  | step_register db now uid ph email pw un hr hf ih =>
    exact reconciled_register db now uid ph email pw un ih hf
  | step_start db now vid tok uid adid hr ih =>
    exact reconciled_ads_start db now vid tok uid adid ih
  | step_complete db now rand txid uid tok hr ih =>
    exact reconciled_ads_complete db now rand txid uid tok ih
  | step_withdraw db now wid txid uid amount method dest hr ih =>
    exact reconciled_request_withdraw db now wid txid uid amount method dest ih

def c1db0 : DB := ⟨[], [], [⟨"U1", "u", 20, 20, 0, 30, true⟩], [], [], [], []⟩

def c1db1 : DB := (register c1db0 0 "u1" (fun _ => "h") "a@b.c" "password" "alice").2

def c1db2 : DB := (ads_start c1db1 10 "v1" "t1" "u1" "U1").2

def c1db3 : DB := (ads_complete c1db2 20 0 "x1" "u1" "t1").2

def c1db4 : DB := (request_withdraw c1db3 30 "w1" "x2" "u1" 10 "paypal" "dest").2

def c1db3x : DB :=
  ⟨[⟨"u1", "a@b.c", "alice", "h", true, 0⟩], [],
   [⟨"U1", "u", 20, 20, 0, 30, true⟩],
   [⟨"v1", "u1", "U1", "t1", 10, some 20, some 20, "completed"⟩],
   [⟨"u1", 20, 0, 20⟩],
   [⟨"x1", "u1", "earn", "ad_view", 20, 20⟩], []⟩

def c1db4x : DB :=
  ⟨[⟨"u1", "a@b.c", "alice", "h", true, 0⟩], [],
   [⟨"U1", "u", 20, 20, 0, 30, true⟩],
   [⟨"v1", "u1", "U1", "t1", 10, some 20, some 20, "completed"⟩],
   [⟨"u1", 10, 10, 30⟩],
   [⟨"x1", "u1", "earn", "ad_view", 20, 20⟩,
    ⟨"x2", "u1", "spend", "withdrawal", -10, 30⟩],
   [⟨"w1", "u1", 10, 0.2, "paypal", "dest", "pending", 30, none, none⟩]⟩

theorem c1db3_eval : c1db3 = c1db3x := by
  simp only [c1db3, c1db2, c1db1, c1db0, c1db3x, register, ads_start,
    ads_complete, findUser, findBalance, updateWhere, completedView,
    drawReward, uniformDraw, cooldownActive, mostRecent, dailyCount, dayStart]
  norm_num

theorem c1db4_eval : c1db4 = c1db4x := by
  have h : c1db4 = (request_withdraw c1db3x 30 "w1" "x2" "u1" 10 "paypal" "dest").2 := by
    rw [c1db4, c1db3_eval]
  rw [h]
  simp only [c1db4x, c1db3x, request_withdraw, findUser, findBalance,
    updateWhere]
  norm_num

theorem balance_claim_counterexample :
    Reach c1db4 ∧
    c1db4.balances = [⟨"u1", 10, 10, 30⟩] ∧
    txSum c1db4.transactions "u1" = 10 ∧
    ¬ (∀ db, Reach db → ∀ b ∈ db.balances,
        b.available + b.pending = txSum db.transactions b.user_id) := by
  have h0 : Reach c1db0 := Reach.start c1db0 rfl rfl rfl rfl rfl rfl
  have h1 : Reach c1db1 := Reach.step_register c1db0 0 "u1" (fun _ => "h")
    "a@b.c" "password" "alice" h0 (by decide)
  have h2 : Reach c1db2 := Reach.step_start c1db1 10 "v1" "t1" "u1" "U1" h1
  have h3 : Reach c1db3 := Reach.step_complete c1db2 20 0 "x1" "u1" "t1" h2
  have h4 : Reach c1db4 :=
    Reach.step_withdraw c1db3 30 "w1" "x2" "u1" 10 "paypal" "dest" h3
  have hbal : c1db4.balances = [⟨"u1", 10, 10, 30⟩] := by
    rw [c1db4_eval]
    rfl
  have htx : txSum c1db4.transactions "u1" = 10 := by
    rw [c1db4_eval]
    simp only [c1db4x, txSum]
    norm_num
  refine ⟨h4, hbal, htx, fun hcl => ?_⟩
  have hbm : (⟨"u1", 10, 10, 30⟩ : Balance) ∈ c1db4.balances := by
    rw [hbal]
    exact List.mem_singleton.mpr rfl
  have hval := hcl c1db4 h4 ⟨"u1", 10, 10, 30⟩ hbm
  rw [htx] at hval
  norm_num at hval

theorem balance_reconciliation_witness :
    (⟨"u1", 20, 0, 20⟩ : Balance).available =
      txSum c1db3x.transactions (⟨"u1", 20, 0, 20⟩ : Balance).user_id ∧
    (⟨"u1", 20, 0, 20⟩ : Balance).pending =
      wSum c1db3x.withdrawals (⟨"u1", 20, 0, 20⟩ : Balance).user_id := by
  have h0 : Reach c1db0 := Reach.start c1db0 rfl rfl rfl rfl rfl rfl
  have h1 : Reach c1db1 := Reach.step_register c1db0 0 "u1" (fun _ => "h")
    "a@b.c" "password" "alice" h0 (by decide)
  have h2 : Reach c1db2 := Reach.step_start c1db1 10 "v1" "t1" "u1" "U1" h1
  have h3 : Reach c1db3 := Reach.step_complete c1db2 20 0 "x1" "u1" "t1" h2
  have h3x : Reach c1db3x := c1db3_eval ▸ h3
  exact balance_reconciliation c1db3x h3x ⟨"u1", 20, 0, 20⟩
    (List.mem_singleton.mpr rfl)
